import Mathlib

/-!
Shallow embedding of `src/renode-research/stm32f3-uart/test-c/main.c`,
a minimal STM32F3 UART / button-debounce firmware, together with proofs
of the behavioural claims of its specification.

The memory-mapped peripheral registers touched by the program are
modelled as fields of an explicit machine state `Mach`; a write to the
USART transmit data register (inside `uart_putc`, after the TXE
busy-wait succeeds) is modelled as appending the byte to the `out`
stream.  The button input pin (GPIOA_IDR bit 0) is modelled as a
boolean sample supplied to each loop iteration.  All register values
are natural numbers; every register operation performed by the program
(`|||`, `&&&` with a 32-bit complement, `^^^`, plain stores) preserves
the 32-bit range, so no explicit truncation arises.
-/

/-- RCC_AHBENR bit 17: GPIOA clock enable (`1 << 17` in the source). -/
def RCC_AHBENR_GPIOAEN : Nat := 1 <<< 17

/-- RCC_AHBENR bit 21: GPIOE clock enable (`1 << 21` in the source). -/
def RCC_AHBENR_GPIOEEN : Nat := 1 <<< 21

/-- RCC_APB2ENR bit 14: USART1 clock enable (`1 << 14` in the source). -/
def RCC_APB2ENR_USART1EN : Nat := 1 <<< 14

/-- USART_CR1 bit 0: USART enable (`1 << 0` in the source). -/
def USART_CR1_UE : Nat := 1 <<< 0

/-- USART_CR1 bit 3: transmitter enable (`1 << 3` in the source). -/
def USART_CR1_TE : Nat := 1 <<< 3

/-- 32-bit bitwise complement, as `~mask` acts on `uint32_t` in C. -/
def compl32 (m : Nat) : Nat := (2 ^ 32 - 1) ^^^ m

/-- Machine state: the peripheral registers the program touches, the
stream of bytes written to the USART transmit data register, and the
single software variable `button_is_pressed`. -/
structure Mach where
  rcc_ahbenr : Nat
  rcc_apb2enr : Nat
  gpioa_moder : Nat
  gpioa_afrh : Nat
  gpioe_moder : Nat
  gpioe_odr : Nat
  usart1_brr : Nat
  usart1_cr1 : Nat
  out : List Char
  button_is_pressed : Bool
deriving Repr, DecidableEq

/-- `uart_putc(c)`: spin until USART1_ISR.TXE is set, then write `c` to
USART1_TDR.  The busy-wait terminates exactly when the hardware raises
TXE; the completed write is modelled as appending the byte to the
outgoing stream. -/
def uart_putc (c : Char) (st : Mach) : Mach :=
  { st with out := st.out ++ [c] }

/-- `uart_puts(s)`: walk the null-terminated string; before sending a
`'\n'` send a `'\r'`, then send the character itself and advance. -/
def uart_puts : List Char → Mach → Mach
  | [], st => st
  | c :: s, st =>
    if c = '\n' then uart_puts s (uart_putc c (uart_putc '\r' st))
    else uart_puts s (uart_putc c st)

/-- `put_string` as the specification words it, independent of the
implementation: each character maps to itself, except that a line feed
is preceded by one carriage return. -/
def put_string_spec (s : List Char) : List Char :=
  s.flatMap fun c => if c = '\n' then ['\r', c] else [c]

/-- Bring-up step 1 (main.c lines 57-58): read-modify-write OR of the
clock-enable bits into RCC_AHBENR and RCC_APB2ENR. -/
def clockEnable (st : Mach) : Mach :=
  let st := { st with
    rcc_ahbenr := st.rcc_ahbenr ||| (RCC_AHBENR_GPIOAEN ||| RCC_AHBENR_GPIOEEN) }
  { st with rcc_apb2enr := st.rcc_apb2enr ||| RCC_APB2ENR_USART1EN }

/-- Bring-up step 2-3 (main.c lines 61-72): PA9 to alternate function
AF7, PE9 to output mode; each a clear-then-set read-modify-write. -/
def pinConfig (st : Mach) : Mach :=
  let st := { st with gpioa_moder := st.gpioa_moder &&& compl32 (3 <<< (9 * 2)) }
  let st := { st with gpioa_moder := st.gpioa_moder ||| (2 <<< (9 * 2)) }
  let st := { st with gpioa_afrh := st.gpioa_afrh &&& compl32 (0xF <<< 4) }
  let st := { st with gpioa_afrh := st.gpioa_afrh ||| (7 <<< 4) }
  let st := { st with gpioe_moder := st.gpioe_moder &&& compl32 (3 <<< (9 * 2)) }
  { st with gpioe_moder := st.gpioe_moder ||| (1 <<< (9 * 2)) }

/-- Bring-up step 4-5 (main.c lines 76-77): write the baud divisor 69
into USART1_BRR and store TE|UE into USART1_CR1 (plain stores). -/
def usartConfig (st : Mach) : Mach :=
  let st := { st with usart1_brr := 69 }
  { st with usart1_cr1 := USART_CR1_TE ||| USART_CR1_UE }

/-- main.c line 83: `GPIOE_ODR |= (1 << 9)` — drive the LED pin high. -/
def ledOn (st : Mach) : Mach :=
  { st with gpioe_odr := st.gpioe_odr ||| (1 <<< 9) }

/-- Everything `main` does before entering the polling loop: clock
enable, pin configuration, USART configuration, the greeting, the LED
pin set, and the initialisation `int button_is_pressed = 0`. -/
def mainStartup (st : Mach) : Mach :=
  let st := clockEnable st
  let st := pinConfig st
  let st := usartConfig st
  let st := uart_puts "hello world!\n".data st
  let st := ledOn st
  { st with button_is_pressed := false }

/-- One iteration of the `while (1)` loop body, given the sampled
button level (GPIOA_IDR bit 0). -/
def loopStep (button_state : Bool) (st : Mach) : Mach :=
  if ¬st.button_is_pressed ∧ button_state then
    { st with button_is_pressed := true }
  else if st.button_is_pressed ∧ ¬button_state then
    let st := uart_puts "button pressed\n".data st
    let st := { st with button_is_pressed := false }
    { st with gpioe_odr := st.gpioe_odr ^^^ (1 <<< 9) }
  else st

/-- Run the loop body over a finite sequence of button samples. -/
def runLoop : List Bool → Mach → Mach
  | [], st => st
  | b :: bs, st => runLoop bs (loopStep b st)

/-- Number of Pressed→Released transitions (the only transitions with
side effects) the loop performs on a sample sequence, starting from a
given value of `button_is_pressed`.  Mirrors the branch structure of
`loopStep`. -/
def countReleases : Bool → List Bool → Nat
  | _, [] => 0
  | pressed, b :: bs =>
    if ¬pressed ∧ b then countReleases true bs
    else if pressed ∧ ¬b then 1 + countReleases false bs
    else countReleases pressed bs

/-- Value of `button_is_pressed` after the loop consumes a sample
sequence, starting from a given value.  Mirrors `loopStep`. -/
def flagAfter : Bool → List Bool → Bool
  | pressed, [] => pressed
  | pressed, b :: bs =>
    if ¬pressed ∧ b then flagAfter true bs
    else if pressed ∧ ¬b then flagAfter false bs
    else flagAfter pressed bs

/-- A completed press-release cycle: starting from `Released`, the
samples drive the machine through exactly one release transition and
leave it back in `Released`. -/
def isCycle (bs : List Bool) : Prop :=
  countReleases false bs = 1 ∧ flagAfter false bs = false

instance (bs : List Bool) : Decidable (isCycle bs) := by
  unfold isCycle; infer_instance

/-- The bytes emitted for the button-release notification:
`uart_puts("button pressed\n")` sends `button pressed\r\n`. -/
def pressedMsg : List Char := "button pressed\r\n".data

/-- `uart_puts` only appends to the output stream; every other field of
the machine state is untouched, and the appended bytes are exactly the
spec-level transform of the string. -/
theorem uart_puts_eq (s : List Char) (st : Mach) :
    uart_puts s st = { st with out := st.out ++ put_string_spec s } := by
  induction s generalizing st with
  | nil => simp [uart_puts, put_string_spec]
  | cons c s ih =>
    by_cases h : c = '\n' <;>
      simp [uart_puts, uart_putc, put_string_spec, h, ih]

theorem put_string_spec_pressed :
    put_string_spec "button pressed\n".data = pressedMsg := by decide

theorem put_string_spec_pressed_list :
    put_string_spec
        ['b', 'u', 't', 't', 'o', 'n', ' ', 'p', 'r', 'e', 's', 's', 'e', 'd', '\n'] =
      pressedMsg := by decide

/-- Idle iteration while released: a low sample leaves the state as is. -/
theorem loopStep_idle_low (st : Mach) (hp : st.button_is_pressed = false) :
    loopStep false st = st := by
  simp [loopStep, hp]

/-- Idle iteration while pressed: a high sample leaves the state as is. -/
theorem loopStep_idle_high (st : Mach) (hp : st.button_is_pressed = true) :
    loopStep true st = st := by
  simp [loopStep, hp]

/-- Press edge: a high sample while released only sets the flag. -/
theorem loopStep_press (st : Mach) (hp : st.button_is_pressed = false) :
    loopStep true st = { st with button_is_pressed := true } := by
  simp [loopStep, hp]

/-- Release edge: a low sample while pressed emits the notification,
clears the flag, and toggles the LED output bit. -/
theorem loopStep_release (st : Mach) (hp : st.button_is_pressed = true) :
    loopStep false st =
      { st with out := st.out ++ pressedMsg, button_is_pressed := false,
                gpioe_odr := st.gpioe_odr ^^^ (1 <<< 9) } := by
  simp [loopStep, hp, uart_puts_eq, put_string_spec_pressed,
    put_string_spec_pressed_list]

/-- Splitting a sample sequence splits the loop run. -/
theorem runLoop_append (xs ys : List Bool) (st : Mach) :
    runLoop (xs ++ ys) st = runLoop ys (runLoop xs st) := by
  induction xs generalizing st with
  | nil => rfl
  | cons b xs ih => simp [runLoop, ih]

/-- The output produced by a loop run is one copy of `pressedMsg` per
release transition, in order. -/
theorem runLoop_out (bs : List Bool) (st : Mach) :
    (runLoop bs st).out =
      st.out ++
        (List.replicate (countReleases st.button_is_pressed bs) pressedMsg).flatten := by
  induction bs generalizing st with
  | nil => simp [runLoop, countReleases]
  | cons b bs ih =>
    cases hp : st.button_is_pressed <;> cases b
    · rw [runLoop, loopStep_idle_low st hp, ih]
      simp [countReleases, hp]
    · rw [runLoop, loopStep_press st hp, ih]
      simp [countReleases, hp]
    · rw [runLoop, loopStep_release st hp, ih]
      simp [countReleases, hp, Nat.one_add, List.replicate_succ]
    · rw [runLoop, loopStep_idle_high st hp, ih]
      simp [countReleases, hp]

/-- The `button_is_pressed` flag after a loop run is `flagAfter`. -/
theorem runLoop_pressed (bs : List Bool) (st : Mach) :
    (runLoop bs st).button_is_pressed = flagAfter st.button_is_pressed bs := by
  induction bs generalizing st with
  | nil => simp [runLoop, flagAfter]
  | cons b bs ih =>
    cases hp : st.button_is_pressed <;> cases b
    · rw [runLoop, loopStep_idle_low st hp, ih]
      simp [flagAfter, hp]
    · rw [runLoop, loopStep_press st hp, ih]
      simp [flagAfter, hp]
    · rw [runLoop, loopStep_release st hp, ih]
      simp [flagAfter, hp]
    · rw [runLoop, loopStep_idle_high st hp, ih]
      simp [flagAfter, hp]

/-- The LED output register after a loop run: unchanged when the number
of release transitions is even, XORed with bit 9 when it is odd. -/
theorem runLoop_odr (bs : List Bool) (st : Mach) :
    (runLoop bs st).gpioe_odr =
      if countReleases st.button_is_pressed bs % 2 = 0 then st.gpioe_odr
      else st.gpioe_odr ^^^ (1 <<< 9) := by
  induction bs generalizing st with
  | nil => simp [runLoop, countReleases]
  | cons b bs ih =>
    cases hp : st.button_is_pressed <;> cases b
    · rw [runLoop, loopStep_idle_low st hp, ih]
      simp [countReleases, hp]
    · rw [runLoop, loopStep_press st hp, ih]
      simp [countReleases, hp]
    · rw [runLoop, loopStep_release st hp, ih]
      simp only [countReleases, hp]
      by_cases hc : countReleases false bs % 2 = 0
      · have h2 : ¬((1 + countReleases false bs) % 2 = 0) := by omega
        simp [hc, h2]
      · have h2 : (1 + countReleases false bs) % 2 = 0 := by omega
        simp [hc, h2, Nat.xor_cancel_right]
    · rw [runLoop, loopStep_idle_high st hp, ih]
      simp [countReleases, hp]

/-- C1: `uart_puts` emits the characters of `s` in order, inserting one
`'\r'` immediately before every `'\n'` and nothing else: its output
extension is exactly the spec-level transform `put_string_spec`. -/
theorem uart_puts_spec (s : List Char) (st : Mach) :
    (uart_puts s st).out = st.out ++ put_string_spec s := by
  simp [uart_puts_eq]

/-- C2: from the initial `Released` state, the sample sequence
[0,1,1,0] produces exactly one `button pressed` transmission and
exactly one LED toggle, both on the final 0 sample; the prefix [0,1,1]
(which contains the 0-to-1 press edge) changes nothing but the flag. -/
theorem press_release_once (st : Mach) (h : st.button_is_pressed = false) :
    runLoop [false, true, true] st = { st with button_is_pressed := true } ∧
    (runLoop [false, true, true, false] st).out = st.out ++ pressedMsg ∧
    (runLoop [false, true, true, false] st).gpioe_odr =
      st.gpioe_odr ^^^ (1 <<< 9) ∧
    (runLoop [false, true, true, false] st).button_is_pressed = false := by
  have h3 : runLoop [false, true, true] st = { st with button_is_pressed := true } := by
    rw [runLoop, loopStep_idle_low st h, runLoop, loopStep_press st h, runLoop,
      loopStep_idle_high _ rfl]
    rfl
  have h4 : runLoop [false, true, true, false] st =
      { st with out := st.out ++ pressedMsg,
                gpioe_odr := st.gpioe_odr ^^^ (1 <<< 9),
                button_is_pressed := false } := by
    have : ([false, true, true, false] : List Bool) =
        [false, true, true] ++ [false] := rfl
    rw [this, runLoop_append, h3, runLoop, loopStep_release _ rfl]
    rfl
  exact ⟨h3, by rw [h4], by rw [h4], by rw [h4]⟩

theorem press_release_once_witness :
    (runLoop [false, true, true, false] ⟨0, 0, 0, 0, 0, 0, 0, 0, [], false⟩).out =
        [] ++ pressedMsg ∧
      (runLoop [false, true, true, false] ⟨0, 0, 0, 0, 0, 0, 0, 0, [], false⟩).gpioe_odr =
        0 ^^^ (1 <<< 9) :=
  ⟨(press_release_once ⟨0, 0, 0, 0, 0, 0, 0, 0, [], false⟩ rfl).2.1,
   (press_release_once ⟨0, 0, 0, 0, 0, 0, 0, 0, [], false⟩ rfl).2.2.1⟩

/-- C3: from an empty output stream, the startup sequence emits exactly
the bytes h e l l o space w o r l d ! CR LF, and as long as the polling
loop sees no button release, no further byte is emitted. -/
theorem startup_output (st : Mach) (h : st.out = []) :
    (mainStartup st).out =
      ['h', 'e', 'l', 'l', 'o', ' ', 'w', 'o', 'r', 'l', 'd', '!', '\r', '\n'] ∧
    ∀ bs, countReleases false bs = 0 →
      (runLoop bs (mainStartup st)).out = (mainStartup st).out := by
  have hout : (mainStartup st).out =
      st.out ++ put_string_spec "hello world!\n".data := by
    simp [mainStartup, clockEnable, pinConfig, usartConfig, ledOn, uart_puts_eq]
  have hflag : (mainStartup st).button_is_pressed = false := by
    simp [mainStartup]
  constructor
  · rw [hout, h]
    decide
  · intro bs hb
    rw [runLoop_out, hflag, hb]
    simp

theorem startup_output_witness :
    (mainStartup ⟨0, 0, 0, 0, 0, 0, 0, 0, [], false⟩).out =
        ['h', 'e', 'l', 'l', 'o', ' ', 'w', 'o', 'r', 'l', 'd', '!', '\r', '\n'] ∧
      (runLoop [false] (mainStartup ⟨0, 0, 0, 0, 0, 0, 0, 0, [], false⟩)).out =
        (mainStartup ⟨0, 0, 0, 0, 0, 0, 0, 0, [], false⟩).out :=
  ⟨(startup_output ⟨0, 0, 0, 0, 0, 0, 0, 0, [], false⟩ rfl).1,
   (startup_output ⟨0, 0, 0, 0, 0, 0, 0, 0, [], false⟩ rfl).2 [false] (by decide)⟩

/-- C4: the baud divisor written into USART1_BRR by bring-up is the
verbatim integer floor(8000000 / 115200) = 69. -/
theorem brr_divisor (st : Mach) :
    (mainStartup st).usart1_brr = 8000000 / 115200 ∧
    (8000000 : Nat) / 115200 = 69 := by
  have h69 : (8000000 : Nat) / 115200 = 69 := by decide
  refine ⟨?_, h69⟩
  rw [h69]
  simp [mainStartup, clockEnable, pinConfig, usartConfig, ledOn, uart_puts_eq]

/-- C5: the clock-enable step sets AHBENR bits 17 and 21 and APB2ENR
bit 14, and preserves every bit of both registers that was already
set (read-modify-write). -/
theorem clock_enable_bits (st : Mach) :
    (clockEnable st).rcc_ahbenr.testBit 17 = true ∧
    (clockEnable st).rcc_ahbenr.testBit 21 = true ∧
    (clockEnable st).rcc_apb2enr.testBit 14 = true ∧
    (∀ i, st.rcc_ahbenr.testBit i = true →
      (clockEnable st).rcc_ahbenr.testBit i = true) ∧
    (∀ i, st.rcc_apb2enr.testBit i = true →
      (clockEnable st).rcc_apb2enr.testBit i = true) := by
  have ha : (clockEnable st).rcc_ahbenr =
      st.rcc_ahbenr ||| (RCC_AHBENR_GPIOAEN ||| RCC_AHBENR_GPIOEEN) := by
    simp [clockEnable]
  have hb : (clockEnable st).rcc_apb2enr =
      st.rcc_apb2enr ||| RCC_APB2ENR_USART1EN := by
    simp [clockEnable]
  refine ⟨?_, ?_, ?_, ?_, ?_⟩
  · rw [ha, Nat.testBit_lor,
      (by decide : (RCC_AHBENR_GPIOAEN ||| RCC_AHBENR_GPIOEEN).testBit 17 = true),
      Bool.or_true]
  · rw [ha, Nat.testBit_lor,
      (by decide : (RCC_AHBENR_GPIOAEN ||| RCC_AHBENR_GPIOEEN).testBit 21 = true),
      Bool.or_true]
  · rw [hb, Nat.testBit_lor,
      (by decide : RCC_APB2ENR_USART1EN.testBit 14 = true), Bool.or_true]
  · intro i hi
    rw [ha, Nat.testBit_lor, hi, Bool.true_or]
  · intro i hi
    rw [hb, Nat.testBit_lor, hi, Bool.true_or]

theorem clock_enable_bits_witness :
    (clockEnable ⟨5, 3, 0, 0, 0, 0, 0, 0, [], false⟩).rcc_ahbenr.testBit 0 = true ∧
      (clockEnable ⟨5, 3, 0, 0, 0, 0, 0, 0, [], false⟩).rcc_apb2enr.testBit 1 = true :=
  ⟨(clock_enable_bits ⟨5, 3, 0, 0, 0, 0, 0, 0, [], false⟩).2.2.2.1 0 (by decide),
   (clock_enable_bits ⟨5, 3, 0, 0, 0, 0, 0, 0, [], false⟩).2.2.2.2 1 (by decide)⟩

/-- C6: the release side effect toggles the LED rather than writing a
fixed value, so from any LED level two consecutive completed
press-release cycles return GPIOE_ODR to its original value. -/
theorem led_toggle_involution (st : Mach) (h : st.button_is_pressed = false)
    (s1 s2 : List Bool) (h1 : isCycle s1) (h2 : isCycle s2) :
    (runLoop (s1 ++ s2) st).gpioe_odr = st.gpioe_odr := by
  obtain ⟨c1, f1⟩ := h1
  obtain ⟨c2, f2⟩ := h2
  rw [runLoop_append, runLoop_odr, runLoop_pressed, h, f1, c2, runLoop_odr, h, c1]
  simp [Nat.xor_cancel_right]

theorem led_toggle_involution_witness :
    (runLoop ([true, false] ++ [true, false])
        ⟨0, 0, 0, 0, 0, 7, 0, 0, [], false⟩).gpioe_odr = 7 :=
  led_toggle_involution ⟨0, 0, 0, 0, 0, 7, 0, 0, [], false⟩ rfl
    [true, false] [true, false] (by decide) (by decide)

/-- C7: every constant edge-free sample sequence — any number of 0
samples from Released, or of 1 samples from Pressed, in particular
[0,0,0,0] and [1,1,1,1] — leaves the entire machine state unchanged:
no message, no LED toggle, same debounce state. -/
theorem no_edge_no_change (st : Mach) (n : Nat) :
    (st.button_is_pressed = false → runLoop (List.replicate n false) st = st) ∧
    (st.button_is_pressed = true → runLoop (List.replicate n true) st = st) := by
  induction n with
  | zero => exact ⟨fun _ => rfl, fun _ => rfl⟩
  | succ n ih =>
    refine ⟨fun h => ?_, fun h => ?_⟩
    · rw [List.replicate_succ]
      show runLoop (List.replicate n false) (loopStep false st) = st
      rw [loopStep_idle_low st h]
      exact ih.1 h
    · rw [List.replicate_succ]
      show runLoop (List.replicate n true) (loopStep true st) = st
      rw [loopStep_idle_high st h]
      exact ih.2 h

theorem no_edge_no_change_witness :
    runLoop [false, false, false, false] ⟨0, 0, 0, 0, 0, 0, 0, 0, [], false⟩ =
        ⟨0, 0, 0, 0, 0, 0, 0, 0, [], false⟩ ∧
      runLoop [true, true, true, true] ⟨0, 0, 0, 0, 0, 0, 0, 0, [], true⟩ =
        ⟨0, 0, 0, 0, 0, 0, 0, 0, [], true⟩ :=
  ⟨(no_edge_no_change ⟨0, 0, 0, 0, 0, 0, 0, 0, [], false⟩ 4).1 rfl,
   (no_edge_no_change ⟨0, 0, 0, 0, 0, 0, 0, 0, [], true⟩ 4).2 rfl⟩

/-- C8: after every completed loop iteration `button_is_pressed` equals
the level sampled in that iteration, both for a single iteration from
any state and after any run ending with that sample. -/
theorem flag_tracks_last_sample (st : Mach) (b : Bool) (bs : List Bool) :
    (loopStep b st).button_is_pressed = b ∧
    (runLoop (bs ++ [b]) st).button_is_pressed = b := by
  have h1 : ∀ st' : Mach, (loopStep b st').button_is_pressed = b := by
    intro st'
    cases hp : st'.button_is_pressed <;> cases b
    · rw [loopStep_idle_low st' hp, hp]
    · rw [loopStep_press st' hp]
    · rw [loopStep_release st' hp]
    · rw [loopStep_idle_high st' hp, hp]
  refine ⟨h1 st, ?_⟩
  rw [runLoop_append]
  exact h1 (runLoop bs st)

/-- C9: the final bring-up step stores TE|UE into USART1_CR1 with a
plain write, not a read-modify-write: whatever the register held
before, afterwards it is exactly 9 = (1 << 3) ||| (1 << 0). -/
theorem cr1_plain_store (st : Mach) :
    (usartConfig st).usart1_cr1 = USART_CR1_TE ||| USART_CR1_UE ∧
    USART_CR1_TE ||| USART_CR1_UE = 9 ∧
    (mainStartup st).usart1_cr1 = 9 := by
  refine ⟨by simp [usartConfig], by decide, ?_⟩
  have h : (mainStartup st).usart1_cr1 = USART_CR1_TE ||| USART_CR1_UE := by
    simp [mainStartup, clockEnable, pinConfig, usartConfig, ledOn, uart_puts_eq]
  rw [h]
  decide

/-- C10: after the greeting and before the loop, main ORs bit 9 into
GPIOE_ODR: at loop entry the LED bit is high whatever the reset value,
and every other bit of the register is preserved. -/
theorem led_high_at_loop_entry (st : Mach) :
    (mainStartup st).gpioe_odr.testBit 9 = true ∧
    ∀ i, i ≠ 9 →
      (mainStartup st).gpioe_odr.testBit i = st.gpioe_odr.testBit i := by
  have hodr : (mainStartup st).gpioe_odr = st.gpioe_odr ||| (1 <<< 9) := by
    simp [mainStartup, clockEnable, pinConfig, usartConfig, ledOn, uart_puts_eq]
  constructor
  · rw [hodr, Nat.testBit_lor,
      (by decide : (1 <<< 9 : Nat).testBit 9 = true), Bool.or_true]
  · intro i hi
    have h1 : (1 <<< 9 : Nat).testBit i = false := by
      rw [Nat.shiftLeft_eq, one_mul, Nat.testBit_two_pow]
      simpa using fun h => hi h.symm
    rw [hodr, Nat.testBit_lor, h1, Bool.or_false]

theorem led_high_at_loop_entry_witness :
    (mainStartup ⟨0, 0, 0, 0, 0, 0, 0, 0, [], false⟩).gpioe_odr.testBit 9 = true ∧
      (mainStartup ⟨0, 0, 0, 0, 0, 0, 0, 0, [], false⟩).gpioe_odr.testBit 0 =
        (0 : Nat).testBit 0 :=
  ⟨(led_high_at_loop_entry ⟨0, 0, 0, 0, 0, 0, 0, 0, [], false⟩).1,
   (led_high_at_loop_entry ⟨0, 0, 0, 0, 0, 0, 0, 0, [], false⟩).2 0 (by decide)⟩
